import Mathlib

/-!
Verification of the elmongoose search layer (`lib/helpers.js`).

The JavaScript source is shallowly embedded: JS values reachable from the
option objects and JSON replies are modelled by `JValue`; the query /
aggregation builders are translated function by function; the retrying
transport executor `backOffRequest` is modelled as a function from an
abstract stream of per-attempt HTTP outcomes (and a stream of
`Math.random()` draws) to the sequence of callback invocations it performs,
the total number of attempts made, and the list of backoff wait times it
schedules.
-/

/-- JavaScript-style values: the payloads of option objects handed to the
query builders and the JSON bodies of elasticsearch replies. `vUndefined` is
JavaScript `undefined` (the result of reading an absent property). Numbers
are modelled as integers, which covers every value the claims touch. -/
inductive JValue where
  | vUndefined
  | vNull
  | vBool (b : Bool)
  | vNum (n : Int)
  | vStr (s : String)
  | vArr (xs : List JValue)
  | vObj (fields : List (String × JValue))

namespace JValue

/-- Property lookup in an object's field list (first binding wins, as JS
objects cannot hold duplicate keys). -/
def lookupField : List (String × JValue) → String → Option JValue
  | [], _ => none
  | (k', v) :: rest, k => if k' = k then some v else lookupField rest k

/-- JS property access `v[k]`: `some` the stored value on objects that have
the key, `none` (i.e. `undefined`) otherwise. -/
def getField : JValue → String → Option JValue
  | .vObj fs, k => lookupField fs k
  | _, _ => none

/-- JS property access, with absent properties read as `undefined`. -/
def getFieldD (v : JValue) (k : String) : JValue :=
  (getField v k).getD .vUndefined

/-- Chained property access `v.k1.k2...`. -/
def getPath : JValue → List String → Option JValue
  | v, [] => some v
  | v, k :: ks =>
    match getField v k with
    | some w => getPath w ks
    | none => none

/-- JavaScript truthiness. -/
def jsTruthy : JValue → Bool
  | .vUndefined => false
  | .vNull => false
  | .vBool b => b
  | .vNum n => n != 0
  | .vStr s => !s.isEmpty
  | .vArr _ => true
  | .vObj _ => true

/-- The JS expression `v.length`: the length of arrays and strings, the
`length` property (if any) of plain objects, `undefined` otherwise. -/
def jsLengthVal : JValue → JValue
  | .vArr xs => .vNum xs.length
  | .vStr s => .vNum s.length
  | .vObj fs => (lookupField fs "length").getD .vUndefined
  | _ => .vUndefined

/-- The JS test `typeof v === "object"`. In JavaScript this is `true` for
plain objects, arrays AND `null` (a well-known legacy quirk of `typeof`),
and `false` for strings, numbers, booleans and `undefined`. -/
def typeofIsObject : JValue → Bool
  | .vNull => true
  | .vArr _ => true
  | .vObj _ => true
  | _ => false

/-- Whether a value is a string or an array (the two specially treated
shapes in the term-filter builder). -/
def isStrOrArr : JValue → Bool
  | .vStr _ => true
  | .vArr _ => true
  | _ => false

end JValue

open JValue

/-- JS `String.prototype.toLowerCase()` on the ASCII strings the library
handles: lower-case every character (this is `String.toLower`, written over
the character list so that it evaluates). -/
def jsToLowerCase (s : String) : String :=
  ⟨s.data.map Char.toLower⟩

/-! ## Transport: `backOffRequest` (helpers.js lines 16-63)

One HTTP attempt either fails at the transport level with an error code (in
which case the `request` library supplies no body, i.e. `body` is
`undefined`), or succeeds with a raw body that is either invalid JSON or
parses to a `JValue`. -/

/-- The raw reply body of a transport-successful attempt. -/
inductive RawBody where
  | invalidJson (raw : String)
  | jsonOf (v : JValue)

/-- Outcome of the `k`-th HTTP attempt (`k` counts from 1). -/
inductive AttemptResult where
  | err (code : String)
  | ok (body : RawBody)

/-- One invocation of the user callback `cb`, as performed by
`backOffRequest`:
* `transportError attempts code reqOpts` — the classified error built at
  lines 35-39 (`error.attempts = attempts`, `error.reqOpts = reqOpts`,
  `error.details = err`);
* `parseError` — the "Elasticsearch did not send back a valid JSON reply"
  error built in the `catch` block at lines 50-54;
* `engineError e` — `cb(parsedBody.error)` at line 47;
* `success body` — `cb(err, res, parsedBody)` at line 58 with `err` null. -/
inductive CbCall (α : Type) where
  | transportError (attempts : Nat) (code : String) (reqOpts : α)
  | parseError
  | engineError (e : JValue)
  | success (body : JValue)

/-- `const maxAttempts = 3` (helpers.js line 17). -/
def maxAttempts : Nat := 3

/-- `const backOffRate = 500` (helpers.js line 18), in milliseconds. -/
def backOffRate : ℚ := 500

/-- The retry condition `err.code === 'ECONNRESET' || err.code === 'EPIPE'
|| err.code === 'ETIMEDOUT'` (helpers.js line 27). -/
def isTransientCode (code : String) : Bool :=
  code == "ECONNRESET" || code == "EPIPE" || code == "ETIMEDOUT"

/-- The recursive `makeAttempts` closure of `backOffRequest` (helpers.js
lines 21-60), run to completion. `attempts0` is the value passed in
(`makeAttempts(attempts)`); the body first increments it. `res k` is the
transport outcome of the `k`-th attempt, `rand k` the `Math.random()` draw
used when scheduling the wait after a failed `k`-th attempt. Returns the
list of callback invocations in order, the final value of `attempts`, and
the list of scheduled `waitTime`s.

Note two behaviors of the source faithfully reproduced here: the `if (err)`
block does not `return`, so after calling `cb` with the classified error
(or after scheduling a retry) control falls through to `JSON.parse(body)`,
which throws on the `undefined` body of a failed attempt and invokes `cb`
again with the malformed-reply error; and a retry is scheduled whenever the
just-failed attempt number satisfies `attempts <= maxAttempts`, so that a
3rd failed attempt still schedules a 4th attempt. -/
def makeAttempts {α : Type} (reqOpts : α) (res : Nat → AttemptResult) (rand : Nat → ℚ)
    (attempts0 : Nat) : List (CbCall α) × Nat × List ℚ :=
  let attempts := attempts0 + 1
  match res attempts with
  | .err code =>
    if isTransientCode code && decide (attempts ≤ maxAttempts) then
      -- waitTime = (backOffRate * attempts) + (Math.random() * backOffRate)
      let waitTime := backOffRate * attempts + rand attempts * backOffRate
      -- fall-through: JSON.parse(undefined) throws, cb gets the parse error,
      -- then the scheduled retry runs
      let tail := makeAttempts reqOpts res rand attempts
      (CbCall.parseError :: tail.1, tail.2.1, waitTime :: tail.2.2)
    else
      -- classified transport error, then the fall-through parse error
      ([CbCall.transportError attempts code reqOpts, CbCall.parseError], attempts, [])
  | .ok body =>
    match body with
    | .invalidJson _ => ([CbCall.parseError], attempts, [])
    | .jsonOf v =>
      if jsTruthy (getFieldD v "error") then
        ([CbCall.engineError (getFieldD v "error")], attempts, [])
      else
        ([CbCall.success v], attempts, [])
termination_by maxAttempts + 1 - attempts0
decreasing_by
  rename_i h
  simp [maxAttempts, isTransientCode] at h ⊢
  omega

/-- `exports.backOffRequest` (helpers.js lines 16-63): `makeAttempts(0)`. -/
def backOffRequest {α : Type} (reqOpts : α) (res : Nat → AttemptResult) (rand : Nat → ℚ) :
    List (CbCall α) × Nat × List ℚ :=
  makeAttempts reqOpts res rand 0

/-! ## Query fragment builders (helpers.js lines 296-553) -/

/-- The term-filter object literal `{term: {[key]: value}}` (helpers.js
lines 305-308 and 316-320). -/
def termFilterOf (key : String) (v : JValue) : JValue :=
  .vObj [("term", .vObj [(key, v)])]

/-- `exports.buildTermFilters` (helpers.js lines 296-325): array values
explode into one term filter per element (elements used as-is); a
non-array string value is lower-cased first; any other value passes
through unchanged. -/
def buildTermFilters : List (String × JValue) → List JValue
  | [] => []
  | (key, termOpt) :: rest =>
    (match termOpt with
     | .vArr xs => xs.map fun x => termFilterOf key x
     | .vStr s => [termFilterOf key (.vStr (jsToLowerCase s))]
     | v => [termFilterOf key v]) ++ buildTermFilters rest

/-- `exports.buildArrayFilters` (helpers.js lines 333-348): emits a
`{terms: {[key]: value}}` filter per key; a non-array value throws. -/
def buildArrayFilters : List (String × JValue) → Except String (List JValue)
  | [] => .ok []
  | (key, v) :: rest =>
    match v with
    | .vArr xs =>
      match buildArrayFilters rest with
      | .error e => .error e
      | .ok tail => .ok (JValue.vObj [("terms", .vObj [(key, .vArr xs)])] :: tail)
    | _ => .error ("Value is not an array: " ++ key)

/-- The nested boolean `must_not` wrapper built per value in
`buildNotMatchingQuery` (helpers.js lines 361-377 and 381-397). -/
def notMatchBody (key : String) (q : JValue) : JValue :=
  .vObj [("query", .vObj [("bool", .vObj [
    ("must_not", .vArr [.vObj [("multi_match", .vObj [
      ("query", q), ("fields", .vStr key),
      ("zero_terms_query", .vStr "all"), ("boost", .vNum 3)])]]),
    ("minimum_should_match", .vNum 1)])])]

/-- `exports.buildNotMatchingQuery` (helpers.js lines 356-402). -/
def buildNotMatchingQuery : List (String × JValue) → List JValue
  | [] => []
  | (key, v) :: rest =>
    (match v with
     | .vArr xs => xs.map fun x => notMatchBody key x
     | w => [notMatchBody key w]) ++ buildNotMatchingQuery rest

/-- The exact/fuzzy pair of `multi_match` clauses built per value in
`buildFuzzyMatchingQuery` (helpers.js lines 416-441 and 448-476): an exact
clause with boost 3 and a fuzzy clause with the caller's fuzziness and
boost 1, under `should` with `minimum_should_match: 1`. -/
def fuzzyShouldBody (key : String) (q : JValue) (fuzziness : JValue) : JValue :=
  .vObj [("query", .vObj [("bool", .vObj [
    ("should", .vArr [
      .vObj [("multi_match", .vObj [
        ("query", q), ("fields", .vStr key),
        ("zero_terms_query", .vStr "all"), ("boost", .vNum 3)])],
      .vObj [("multi_match", .vObj [
        ("query", q), ("fields", .vStr key),
        ("zero_terms_query", .vStr "all"), ("fuzziness", fuzziness),
        ("boost", .vNum 1)])]]),
    ("minimum_should_match", .vNum 1)])])]

/-- `exports.buildFuzzyMatchingQuery` (helpers.js lines 411-481). The JS
function mutates its argument: a non-array string value is replaced by its
lower-cased form (`fuzzyOpts[key] = fuzzyOpts[key].toLowerCase()`, line
446) before the clause pair is built; array values are left untouched and
their elements are used as-is. The embedding returns the built query list
together with the final state of `fuzzyOpts`. -/
def buildFuzzyMatchingQuery (fuzzyOpts : List (String × JValue)) (fuzziness : JValue) :
    List JValue × List (String × JValue) :=
  match fuzzyOpts with
  | [] => ([], [])
  | (key, v) :: rest =>
    let tail := buildFuzzyMatchingQuery rest fuzziness
    match v with
    | .vArr xs => ((xs.map fun x => fuzzyShouldBody key x fuzziness) ++ tail.1,
        (key, .vArr xs) :: tail.2)
    | .vStr s => (fuzzyShouldBody key (.vStr (jsToLowerCase s)) fuzziness :: tail.1,
        (key, .vStr (jsToLowerCase s)) :: tail.2)
    | w => (fuzzyShouldBody key w fuzziness :: tail.1, (key, w) :: tail.2)

/-- `exports.buildAllMatchingQuery` (helpers.js lines 489-503). -/
def buildAllMatchingQuery (allOpts : List JValue) : List JValue :=
  allOpts.map fun a => .vObj [("query", .vObj [("match", .vObj [("_all", a)])])]

/-- `exports.buildAllMatchQuery` (helpers.js lines 505-512). -/
def buildAllMatchQuery : List JValue :=
  [.vObj [("match_all", .vObj [])]]

/-- `exports.buildMatchPhraseQuery` (helpers.js lines 514-527): builds a
`match_phrase` wrapper per entry when `opts.length` is truthy. -/
def buildMatchPhraseQuery (opts : List JValue) : List JValue :=
  if opts.isEmpty then []
  else opts.map fun opt => .vObj [("query", .vObj [("match_phrase", opt)])]

/-- `exports.buildRangeFilter` (helpers.js lines 535-553): a value with
`typeof === "object"` yields `{range: {[key]: value}}`; any other value is
only logged (`logger.info`) and contributes no filter. -/
def buildRangeFilter : List (String × JValue) → List JValue
  | [] => []
  | (key, v) :: rest =>
    if typeofIsObject v then
      JValue.vObj [("range", .vObj [(key, v)])] :: buildRangeFilter rest
    else
      -- logger.info('error: Range given is not an Object: ...'); no filter
      buildRangeFilter rest

/-! ## Search body assembly (helpers.js lines 561-658)

The option-set categories are typed by the shapes the builders consume:
object-valued categories as association lists, array-valued categories as
lists. An absent (or `null`, the merged default) category is `none`. -/

/-- The search option set consumed by `mergeSearchBody`, with the defaults
of `mergeSearchOptions` (helpers.js lines 223-257). -/
structure SearchOpts where
  mustMatch : Option (List (String × JValue)) := none
  mustMatchPhrase : Option (List JValue) := none
  shouldMatch : Option (List (String × JValue)) := none
  mustFuzzyMatch : Option (List (String × JValue)) := none
  shouldFuzzyMatch : Option (List (String × JValue)) := none
  mustNotMatch : Option (List (String × JValue)) := none
  shouldNotMatch : Option (List (String × JValue)) := none
  mustAllMatch : Option (List JValue) := none
  shouldAllMatch : Option (List JValue) := none
  mustRange : Option (List (String × JValue)) := none
  shouldRange : Option (List (String × JValue)) := none
  mustArray : Option (List (String × JValue)) := none
  shouldArray : Option (List (String × JValue)) := none
  sort : Option JValue := none
  matchAll : Option JValue := none
  fuzziness : JValue := .vNum 0
  pageSize : Int := 25
  page : Int := 1

/-- The guard `searchOpts.X && Object.keys(searchOpts.X).length` for an
object-valued category. -/
def objPopulated : Option (List (String × JValue)) → Bool
  | some l => !l.isEmpty
  | none => false

/-- The same guard for an array-valued category (`Object.keys` of an array
lists its indices). -/
def arrPopulated : Option (List JValue) → Bool
  | some l => !l.isEmpty
  | none => false

/-- The guard `searchOpts.matchAll && Object.keys(searchOpts.matchAll).length`
for the `matchAll` category, whose value may be any JS value (the tests pass
the string `'*'`; `Object.keys` of a string lists its character indices). -/
def matchAllPopulated : Option JValue → Bool
  | some v =>
    jsTruthy v &&
      (match v with
       | .vObj fs => !fs.isEmpty
       | .vArr xs => !xs.isEmpty
       | .vStr s => !s.isEmpty
       | _ => false)
  | none => false

/-- The `mustFilters` accumulated by `mergeSearchBody`, in source order:
mustNotMatch (line 579), mustFuzzyMatch (589), mustAllMatch (601),
mustMatch (611), mustMatchPhrase (615), mustArray (625), mustRange (635),
matchAll (644). `buildArrayFilters` may throw. Note line 645 passes
`searchOpts.mustMatch` to `buildAllMatchQuery`, which ignores its input. -/
def searchMustFilters (o : SearchOpts) : Except String (List JValue) :=
  let notM := if objPopulated o.mustNotMatch then
    buildNotMatchingQuery (o.mustNotMatch.getD []) else []
  let fuzzyM := if objPopulated o.mustFuzzyMatch then
    (buildFuzzyMatchingQuery (o.mustFuzzyMatch.getD []) o.fuzziness).1 else []
  let allM := if arrPopulated o.mustAllMatch then
    buildAllMatchingQuery (o.mustAllMatch.getD []) else []
  let termM := if objPopulated o.mustMatch then
    buildTermFilters (o.mustMatch.getD []) else []
  let phraseM := if arrPopulated o.mustMatchPhrase then
    buildMatchPhraseQuery (o.mustMatchPhrase.getD []) else []
  match (if objPopulated o.mustArray then
    buildArrayFilters (o.mustArray.getD []) else .ok ([] : List JValue)) with
  | .error e => .error e
  | .ok arrM =>
    let rangeM := if objPopulated o.mustRange then
      buildRangeFilter (o.mustRange.getD []) else []
    let matchAllM := if matchAllPopulated o.matchAll then buildAllMatchQuery else []
    .ok (notM ++ fuzzyM ++ allM ++ termM ++ phraseM ++ arrM ++ rangeM ++ matchAllM)

/-- The `shouldFilters` accumulated by `mergeSearchBody`, in source order:
shouldNotMatch (line 584), shouldFuzzyMatch (595), shouldAllMatch (606),
shouldMatch (620), shouldArray (630), shouldRange (640). -/
def searchShouldFilters (o : SearchOpts) : Except String (List JValue) :=
  let notS := if objPopulated o.shouldNotMatch then
    buildNotMatchingQuery (o.shouldNotMatch.getD []) else []
  let fuzzyS := if objPopulated o.shouldFuzzyMatch then
    (buildFuzzyMatchingQuery (o.shouldFuzzyMatch.getD []) o.fuzziness).1 else []
  let allS := if arrPopulated o.shouldAllMatch then
    buildAllMatchingQuery (o.shouldAllMatch.getD []) else []
  let termS := if objPopulated o.shouldMatch then
    buildTermFilters (o.shouldMatch.getD []) else []
  match (if objPopulated o.shouldArray then
    buildArrayFilters (o.shouldArray.getD []) else .ok ([] : List JValue)) with
  | .error e => .error e
  | .ok arrS =>
    let rangeS := if objPopulated o.shouldRange then
      buildRangeFilter (o.shouldRange.getD []) else []
    .ok (notS ++ fuzzyS ++ allS ++ termS ++ arrS ++ rangeS)

/-- `exports.mergeSearchBody` (helpers.js lines 561-658). The body object
is created as `{query: {bool: {}}}`, then `from`, `size` and (optionally)
`sort` are added, and `must`/`should` are installed inside `query.bool`
only when non-empty; JS property insertion order gives the field order
below. `from = page ? (page - 1) * pageSize : 0`, `size = pageSize`. -/
def mergeSearchBody (o : SearchOpts) : Except String JValue :=
  match searchMustFilters o with
  | .error e => .error e
  | .ok mustFilters =>
    match searchShouldFilters o with
    | .error e => .error e
    | .ok shouldFilters =>
      let boolFields :=
        (if mustFilters.isEmpty then [] else [("must", JValue.vArr mustFilters)]) ++
        (if shouldFilters.isEmpty then [] else [("should", JValue.vArr shouldFilters)])
      .ok (.vObj ([("query", JValue.vObj [("bool", .vObj boolFields)]),
        ("from", JValue.vNum (if o.page != 0 then (o.page - 1) * o.pageSize else 0)),
        ("size", JValue.vNum o.pageSize)] ++
        (match o.sort with
         | some s => [("sort", s)]
         | none => [])))

/-! ## Aggregation body assembly (helpers.js lines 666-718) -/

/-- The aggregation option set consumed by `mergeAggBody` (only the fields
it reads), with the defaults of `mergeAggOptions` (helpers.js 264-288). -/
structure AggOpts where
  mustMatch : Option (List (String × JValue)) := none
  shouldMatch : Option (List (String × JValue)) := none
  groupBy : JValue := .vNull
  pageSize : Int := 25
  page : Int := 1

/-- The `aggBody` literal of `mergeAggBody` (helpers.js lines 670-677): a
terms aggregation on `groupBy` with `size: 0` (all buckets). -/
def bareAggBody (groupBy : JValue) : JValue :=
  .vObj [("ElmongooseAgg", .vObj [("terms", .vObj [
    ("field", groupBy), ("size", .vNum 0)])])]

/-- The `mustFilters` of `mergeAggBody` (helpers.js lines 684-686). -/
def aggMustFilters (o : AggOpts) : List JValue :=
  if objPopulated o.mustMatch then buildTermFilters (o.mustMatch.getD []) else []

/-- The `shouldFilters` of `mergeAggBody` (helpers.js lines 689-691). -/
def aggShouldFilters (o : AggOpts) : List JValue :=
  if objPopulated o.shouldMatch then buildTermFilters (o.shouldMatch.getD []) else []

/-- `exports.mergeAggBody` (helpers.js lines 666-718): always sets `from`
and `size`; when any must/should term filters exist the aggregation is
wrapped under `ElmongooseAggWrapper` as a filter aggregation whose `bool`
carries the filters, otherwise `aggs` is the bare aggregation. -/
def mergeAggBody (o : AggOpts) : JValue :=
  let mustFilters := aggMustFilters o
  let shouldFilters := aggShouldFilters o
  let aggs : JValue :=
    if !mustFilters.isEmpty || !shouldFilters.isEmpty then
      .vObj [("ElmongooseAggWrapper", .vObj [
        ("filter", .vObj [("bool", .vObj (
          (if mustFilters.isEmpty then [] else [("must", JValue.vArr mustFilters)]) ++
          (if shouldFilters.isEmpty then [] else [("should", JValue.vArr shouldFilters)])))]),
        ("aggs", bareAggBody o.groupBy)])]
    else bareAggBody o.groupBy
  .vObj [("from", .vNum (if o.page != 0 then (o.page - 1) * o.pageSize else 0)),
    ("size", .vNum o.pageSize), ("aggs", aggs)]

/-! ## Result normalization (helpers.js lines 745-767 and 796-820)

These model the reply-shaping performed inside the `backOffRequest`
callbacks of `doSearchAndNormalizeResults` and `doAggAndNormalizeResults`
on a parsed reply (the transport-error branch at lines 746-750 / 797-801
is upstream of this shaping). `.error` carries the raw reply, as
`error.elasticsearchReply = body` does. -/

/-- Search-reply normalization (helpers.js lines 752-766): fail when
`body.hits` is falsy; otherwise `{total: body.hits.total, hits: []}` with
`hits` overwritten by `body.hits.hits` when that is truthy with truthy
`length`. -/
def normalizeSearchReply (body : JValue) : Except JValue JValue :=
  if !jsTruthy (getFieldD body "hits") then .error body
  else
    let hits := getFieldD body "hits"
    let hitArr := getFieldD hits "hits"
    .ok (.vObj [("total", getFieldD hits "total"),
      ("hits", if jsTruthy hitArr && jsTruthy (jsLengthVal hitArr) then hitArr
        else .vArr [])])

/-- Aggregation-reply normalization (helpers.js lines 803-819): fail when
`body.hits` is falsy; otherwise `{total: body.hits.total, aggregation:
body.aggregations}`, with a `hits` property appended only when
`body.hits.hits` is truthy with truthy `length`. -/
def normalizeAggReply (body : JValue) : Except JValue JValue :=
  if !jsTruthy (getFieldD body "hits") then .error body
  else
    let hits := getFieldD body "hits"
    let hitArr := getFieldD hits "hits"
    .ok (.vObj ([("total", getFieldD hits "total"),
      ("aggregation", getFieldD body "aggregations")] ++
      (if jsTruthy hitArr && jsTruthy (jsLengthVal hitArr) then [("hits", hitArr)]
       else [])))

/-! ## Helper lemmas -/

/-- One-step unfolding of `makeAttempts` with the local bindings inlined. -/
theorem makeAttempts_unfold {α : Type} (reqOpts : α) (res : Nat → AttemptResult)
    (rand : Nat → ℚ) (attempts0 : Nat) :
    makeAttempts reqOpts res rand attempts0 =
      match res (attempts0 + 1) with
      | .err code =>
        if isTransientCode code && decide (attempts0 + 1 ≤ maxAttempts) then
          (CbCall.parseError :: (makeAttempts reqOpts res rand (attempts0 + 1)).1,
            (makeAttempts reqOpts res rand (attempts0 + 1)).2.1,
            (backOffRate * (attempts0 + 1 : Nat) + rand (attempts0 + 1) * backOffRate)
              :: (makeAttempts reqOpts res rand (attempts0 + 1)).2.2)
        else
          ([CbCall.transportError (attempts0 + 1) code reqOpts, CbCall.parseError],
            attempts0 + 1, [])
      | .ok body =>
        match body with
        | .invalidJson _ => ([CbCall.parseError], attempts0 + 1, [])
        | .jsonOf v =>
          if jsTruthy (getFieldD v "error") then
            ([CbCall.engineError (getFieldD v "error")], attempts0 + 1, [])
          else
            ([CbCall.success v], attempts0 + 1, []) := by
  rw [makeAttempts.eq_def]

/-- Every wait time scheduled by `makeAttempts` follows the source formula:
the `i`-th scheduled wait (0-based, scheduled after the failure of attempt
`attempts0 + 1 + i`) equals `backOffRate * (attempts0 + 1 + i) +
rand (attempts0 + 1 + i) * backOffRate`. -/
theorem makeAttempts_waits_get {α : Type} (reqOpts : α) (res : Nat → AttemptResult)
    (rand : Nat → ℚ) :
    ∀ (i attempts0 : Nat) (w : ℚ),
      ((makeAttempts reqOpts res rand attempts0).2.2).get? i = some w →
      w = backOffRate * (attempts0 + 1 + i : Nat) + rand (attempts0 + 1 + i) * backOffRate := by
  intro i
  induction i with
  | zero =>
    intro a0 w h
    rw [makeAttempts_unfold] at h
    split at h
    · split at h
      · simp at h
        simp [h]
      · simp at h
    · split at h <;> [skip; split at h] <;> simp at h
  | succ i ih =>
    intro a0 w h
    rw [makeAttempts_unfold] at h
    split at h
    · split at h
      · simp only [List.get?] at h
        have h2 := ih (a0 + 1) w h
        have hn : a0 + 1 + 1 + i = a0 + 1 + (i + 1) := by omega
        rw [hn] at h2
        exact h2
      · simp at h
    · split at h <;> [skip; split at h] <;> simp at h

/-- `buildTermFilters` distributes over list append. -/
theorem buildTermFilters_append (l1 l2 : List (String × JValue)) :
    buildTermFilters (l1 ++ l2) = buildTermFilters l1 ++ buildTermFilters l2 := by
  induction l1 with
  | nil => simp [buildTermFilters]
  | cons kv rest ih =>
    obtain ⟨k, v⟩ := kv
    simp [buildTermFilters, ih]

/-- `buildRangeFilter` distributes over list append. -/
theorem buildRangeFilter_append (l1 l2 : List (String × JValue)) :
    buildRangeFilter (l1 ++ l2) = buildRangeFilter l1 ++ buildRangeFilter l2 := by
  induction l1 with
  | nil => simp [buildRangeFilter]
  | cons kv rest ih =>
    obtain ⟨k, v⟩ := kv
    simp only [List.cons_append, buildRangeFilter]
    split <;> simp [ih]

/-! ## Claim C1 -/

/-- Claim C1 (code bug): the claim says that when every attempt fails with
a transient error, `backOffRequest` makes exactly 3 attempts and reports a
classified error with `attempts = 3`. The code's own constant is
`maxAttempts = 3`, but the retry guard `attempts <= maxAttempts` runs after
the increment, so a 3rd failed attempt still schedules a 4th: on an
all-`ECONNRESET` outcome stream the executor makes 4 attempts, schedules
waits of 500, 1000 and 1500 ms, invokes the callback with a premature
malformed-reply error after each of the first three failures (missing
`return`), and finally reports the classified error with `attempts = 4`
(followed by one more fall-through parse-error invocation). -/
theorem backOffRequest_allTransient_trace :
    backOffRequest () (fun _ => .err "ECONNRESET") (fun _ => 0) =
      ([.parseError, .parseError, .parseError, .transportError 4 "ECONNRESET" (),
        .parseError], 4, [500, 1000, 1500]) ∧
    maxAttempts = 3 := by
  constructor
  · simp [backOffRequest, makeAttempts, maxAttempts, backOffRate, isTransientCode,
      jsTruthy, getFieldD, getField]
    norm_num
  · rfl

/-! ## Claim C2 -/

/-- Claim C2 (code bug): the claim says a transient failure within the
attempt cap never reaches the callback and the callback runs at most once
per logical request. Because the `if (err)` block does not `return`, the
code falls through to `JSON.parse(body)` with `body` undefined and invokes
the callback with a malformed-reply error while the retry is already
scheduled: a request that fails once with `ECONNRESET` and then succeeds
invokes the callback twice — a `parseError` surfaced for the intermediate
failure, then the success. -/
theorem backOffRequest_intermediate_failure_surfaced :
    backOffRequest ()
      (fun k => if k = 1 then .err "ECONNRESET" else .ok (.jsonOf (.vObj [("took", .vNum 2)])))
      (fun _ => 0) =
      ([.parseError, .success (.vObj [("took", .vNum 2)])], 2, [500]) := by
  simp [backOffRequest, makeAttempts, maxAttempts, backOffRate, isTransientCode,
    jsTruthy, getFieldD, getField, JValue.lookupField]

/-! ## Claim C3 -/

/-- Claim C3, counterexample: the claim says the wait before attempt `n`
(n ≥ 2) is `500 * n + j` for some jitter `j` in `[0, 500)`. With a zero
jitter stream and an all-transient failure stream, the wait scheduled
before attempt 2 (the first element of the wait list) is 500 ms, and no
`j` in `[0, 500)` satisfies `500 = 500 * 2 + j`. -/
theorem backOffRequest_secondAttempt_wait_counterexample :
    ((backOffRequest () (fun _ => .err "ECONNRESET") (fun _ => 0)).2.2).get? 0 =
      some 500 ∧
    ¬ ∃ j : ℚ, 0 ≤ j ∧ j < 500 ∧ (500 : ℚ) = 500 * 2 + j := by
  constructor
  · simp [backOffRequest, makeAttempts, maxAttempts, backOffRate, isTransientCode]
  · rintro ⟨j, hj0, _, heq⟩
    linarith

/-- Claim C3 (amended): for every retried attempt `n` (n ≥ 2), the wait
scheduled before attempt `n` equals `backOffRate * (n - 1) + j` for some
jitter `j` in `[0, backOffRate)` (the source computes
`backOffRate * attempts + Math.random() * backOffRate` after the failure of
attempt `n - 1`, so the factor is the failed attempt's number `n - 1`, not
`n`). The wait before attempt `n` is entry `n - 2` of the wait list. -/
theorem backOffRequest_wait_linear_in_prior_attempt {α : Type} (reqOpts : α)
    (res : Nat → AttemptResult) (rand : Nat → ℚ)
    (hrand : ∀ k, 0 ≤ rand k ∧ rand k < 1) (n : Nat) (hn : 2 ≤ n) (w : ℚ)
    (hw : ((backOffRequest reqOpts res rand).2.2).get? (n - 2) = some w) :
    ∃ j : ℚ, 0 ≤ j ∧ j < backOffRate ∧ w = backOffRate * ((n : ℚ) - 1) + j := by
  have h2 := makeAttempts_waits_get reqOpts res rand (n - 2) 0 w hw
  have hnat : 0 + 1 + (n - 2) = n - 1 := by omega
  rw [hnat] at h2
  refine ⟨rand (n - 1) * backOffRate, ?_, ?_, ?_⟩
  · exact mul_nonneg (hrand (n - 1)).1 (by norm_num [backOffRate])
  · calc rand (n - 1) * backOffRate < 1 * backOffRate :=
          mul_lt_mul_of_pos_right (hrand (n - 1)).2 (by norm_num [backOffRate])
      _ = backOffRate := one_mul _
  · rw [h2]
    have hc : ((n - 1 : ℕ) : ℚ) = (n : ℚ) - 1 := by
      rw [Nat.cast_sub (by omega : 1 ≤ n), Nat.cast_one]
    rw [hc]

/-- Witness for the amended claim C3, at `n = 2` on an all-reset stream
with zero jitter: the wait before attempt 2 is `500 * (2 - 1) + 0`. -/
theorem backOffRequest_wait_linear_in_prior_attempt_witness :
    (∀ k : Nat, 0 ≤ (fun _ : Nat => (0 : ℚ)) k ∧ (fun _ : Nat => (0 : ℚ)) k < 1) ∧
    (2 : Nat) ≤ 2 ∧
    ((backOffRequest () (fun _ => AttemptResult.err "ECONNRESET")
        (fun _ => (0 : ℚ))).2.2).get? (2 - 2) = some 500 ∧
    ∃ j : ℚ, 0 ≤ j ∧ j < backOffRate ∧
      (500 : ℚ) = backOffRate * (((2 : Nat) : ℚ) - 1) + j := by
  have hr : ∀ k : Nat, 0 ≤ (fun _ : Nat => (0 : ℚ)) k ∧ (fun _ : Nat => (0 : ℚ)) k < 1 := by
    intro k
    constructor <;> norm_num
  have hget : ((backOffRequest () (fun _ => AttemptResult.err "ECONNRESET")
      (fun _ => (0 : ℚ))).2.2).get? (2 - 2) = some 500 := by
    simp [backOffRequest, makeAttempts, maxAttempts, backOffRate, isTransientCode]
  exact ⟨hr, by norm_num, hget,
    backOffRequest_wait_linear_in_prior_attempt () _ _ hr 2 (by norm_num) 500 hget⟩

/-! ## Claim C4 -/

/-- Claim C4 (confirmed): for all integers `p ≥ 1`, `s ≥ 1`, any search
body built from an option set with `page = p` and `pageSize = s` has
`from = (p - 1) * s` and `size = s`; and for an option set with no clause
categories populated, the body is exactly `{query: {bool: {}}, from, size}`
— `from` and `size` together with an empty boolean query. -/
theorem mergeSearchBody_paging (p s : Int) (hp : 1 ≤ p) (hs : 1 ≤ s) :
    (∀ (o : SearchOpts) (b : JValue), o.page = p → o.pageSize = s →
      mergeSearchBody o = .ok b →
      getField b "from" = some (.vNum ((p - 1) * s)) ∧
      getField b "size" = some (.vNum s)) ∧
    mergeSearchBody { page := p, pageSize := s } =
      .ok (.vObj [("query", .vObj [("bool", .vObj [])]),
        ("from", .vNum ((p - 1) * s)), ("size", .vNum s)]) := by
  have hpne : p ≠ 0 := by omega
  constructor
  · intro o b hpage hsize hok
    have hcond : (o.page != 0) = true := by
      simp [hpage, bne_iff_ne, hpne]
    cases hm : searchMustFilters o with
    | error e =>
      rw [mergeSearchBody, hm] at hok
      simp at hok
    | ok m =>
      cases hsh : searchShouldFilters o with
      | error e =>
        rw [mergeSearchBody, hm, hsh] at hok
        simp at hok
      | ok sf =>
        rw [mergeSearchBody, hm, hsh] at hok
        simp at hok
        subst hok
        constructor <;> simp [getField, lookupField, hcond, hpage, hsize] <;> omega
  · have hcond : (p != 0) = true := by simp [bne_iff_ne, hpne]
    simp [mergeSearchBody, searchMustFilters, searchShouldFilters, objPopulated,
      arrPopulated, matchAllPopulated, hcond]

/-- Witness for claim C4 at `p = 2`, `s = 25`. -/
theorem mergeSearchBody_paging_witness :
    (1 : Int) ≤ 2 ∧ (1 : Int) ≤ 25 ∧
    mergeSearchBody { page := 2, pageSize := 25 } =
      .ok (.vObj [("query", .vObj [("bool", .vObj [])]),
        ("from", .vNum ((2 - 1) * 25)), ("size", .vNum 25)]) :=
  ⟨by norm_num, by norm_num,
    (mergeSearchBody_paging 2 25 (by norm_num) (by norm_num)).2⟩

/-! ## Claim C5 -/

/-- Claim C5, counterexample: the claim says array values explode into term
filters with string elements lower-cased. The array branch of
`buildTermFilters` (helpers.js lines 303-310) copies elements as-is:
`buildTermFilters {f: ["ABC"]}` yields the filter `{term: {f: "ABC"}}`,
not `{term: {f: "abc"}}`. -/
theorem buildTermFilters_array_value_not_lowercased :
    buildTermFilters [("f", .vArr [.vStr "ABC"])] = [termFilterOf "f" (.vStr "ABC")] ∧
    buildTermFilters [("f", .vArr [.vStr "ABC"])] ≠ [termFilterOf "f" (.vStr "abc")] := by
  constructor
  · rfl
  · simp [buildTermFilters, termFilterOf]

/-- Claim C5 (amended): for every term category entry, a single string
value produces exactly one term filter with the lower-cased string, a
non-string non-array value passes through unchanged, and an array value of
length N explodes into exactly N term filters in the same order, each
keyed by the entry's field name, with the elements passed through
unmodified (not lower-cased). -/
theorem buildTermFilters_entry_behavior (pre post : List (String × JValue)) (key : String) :
    (∀ s : String, buildTermFilters (pre ++ (key, .vStr s) :: post) =
      buildTermFilters pre ++ [termFilterOf key (.vStr (jsToLowerCase s))] ++ buildTermFilters post) ∧
    (∀ xs : List JValue, buildTermFilters (pre ++ (key, .vArr xs) :: post) =
      buildTermFilters pre ++ xs.map (termFilterOf key) ++ buildTermFilters post) ∧
    (∀ v : JValue, isStrOrArr v = false →
      buildTermFilters (pre ++ (key, v) :: post) =
      buildTermFilters pre ++ [termFilterOf key v] ++ buildTermFilters post) := by
  refine ⟨?_, ?_, ?_⟩
  · intro s
    rw [buildTermFilters_append]
    simp [buildTermFilters]
  · intro xs
    rw [buildTermFilters_append]
    simp [buildTermFilters]
  · intro v hv
    rw [buildTermFilters_append]
    cases v <;> simp_all [buildTermFilters, isStrOrArr]

/-- Witness for the amended claim C5: a non-string non-array value (the
number 7) passes through unchanged, alongside another entry. -/
theorem buildTermFilters_entry_behavior_witness :
    isStrOrArr (.vNum 7) = false ∧
    buildTermFilters ([("a", JValue.vNum 1)] ++ ("f", JValue.vNum 7) :: []) =
      buildTermFilters [("a", JValue.vNum 1)] ++ [termFilterOf "f" (.vNum 7)] ++
        buildTermFilters [] :=
  ⟨rfl, (buildTermFilters_entry_behavior [("a", JValue.vNum 1)] [] "f").2.2 (.vNum 7) rfl⟩

/-! ## Claim C6 -/

/-- Claim C6, counterexample: the claim says normalization fails only when
the reply has no `hits` field and succeeds otherwise. The source guard is
`if (!body.hits)` (helpers.js line 752), which fails on any falsy `hits`
value: the reply `{hits: null}` has a `hits` field yet is rejected. -/
theorem normalizeSearchReply_null_hits_counterexample :
    getField (.vObj [("hits", .vNull)]) "hits" = some .vNull ∧
    normalizeSearchReply (.vObj [("hits", .vNull)]) = .error (.vObj [("hits", .vNull)]) :=
  ⟨rfl, rfl⟩

/-- Claim C6 (amended): normalization fails, with an error carrying the raw
reply, exactly when the reply's `hits` field is absent or falsy (absent
being the "missing hits" case of the claim); on every other reply — every
reply whose `hits` field is truthy — it succeeds, with `total` read from
`hits.total` and a `hits` field that is never null or absent: the hit array
when it is present and non-empty, an empty array when it is absent or
empty. In particular
`normalizeSearchReply {hits: {total: 3, hits: [a, b, c]}}` is
`{total: 3, hits: [a, b, c]}` and `normalizeSearchReply {}` fails. -/
theorem normalizeSearchReply_behavior :
    (∀ body : JValue, jsTruthy (getFieldD body "hits") = false →
      normalizeSearchReply body = .error body) ∧
    (∀ body : JValue, jsTruthy (getFieldD body "hits") = true →
      ∃ r, normalizeSearchReply body = .ok r ∧
        getField r "total" = some (getFieldD (getFieldD body "hits") "total") ∧
        ∃ hv, getField r "hits" = some hv ∧ hv ≠ .vNull ∧
          (∀ x : JValue, ∀ xs : List JValue,
            getFieldD (getFieldD body "hits") "hits" = .vArr (x :: xs) →
              hv = .vArr (x :: xs)) ∧
          (getFieldD (getFieldD body "hits") "hits" = .vArr [] → hv = .vArr []) ∧
          (getFieldD (getFieldD body "hits") "hits" = .vUndefined → hv = .vArr [])) ∧
    (∀ a b c : JValue,
      normalizeSearchReply
          (.vObj [("hits", .vObj [("total", .vNum 3), ("hits", .vArr [a, b, c])])]) =
        .ok (.vObj [("total", .vNum 3), ("hits", .vArr [a, b, c])])) ∧
    normalizeSearchReply (.vObj []) = .error (.vObj []) := by
  refine ⟨?_, ?_, ?_, rfl⟩
  · intro body h
    simp [normalizeSearchReply, h]
  · intro body ht
    by_cases hg : jsTruthy (getFieldD (getFieldD body "hits") "hits") = true ∧
        jsTruthy (jsLengthVal (getFieldD (getFieldD body "hits") "hits")) = true
    · refine ⟨.vObj [("total", getFieldD (getFieldD body "hits") "total"),
          ("hits", getFieldD (getFieldD body "hits") "hits")],
        by rw [normalizeSearchReply]; simp [ht, hg],
        by simp [getField, lookupField],
        getFieldD (getFieldD body "hits") "hits",
        by simp [getField, lookupField], ?_, ?_, ?_, ?_⟩
      · intro heq
        rw [heq] at hg
        simp [jsTruthy] at hg
      · intro x xs hxs
        exact hxs
      · intro hxs
        rw [hxs] at hg
        simp [jsTruthy, jsLengthVal] at hg
      · intro hxs
        rw [hxs] at hg
        simp [jsTruthy] at hg
    · refine ⟨.vObj [("total", getFieldD (getFieldD body "hits") "total"),
          ("hits", .vArr [])],
        by rw [normalizeSearchReply]; simp [ht, hg],
        by simp [getField, lookupField],
        .vArr [], by simp [getField, lookupField], by simp, ?_,
        fun _ => rfl, fun _ => rfl⟩
      intro x xs hxs
      rw [hxs] at hg
      simp [jsTruthy, jsLengthVal] at hg
      omega
  · intro a b c
    rfl

/-- Witness for the amended claim C6, in both directions: a reply without
any `hits` field is rejected with the raw reply attached, and a reply with
a truthy `hits` field (here one with no hit array) succeeds. -/
theorem normalizeSearchReply_behavior_witness :
    (jsTruthy (getFieldD (.vObj [("took", JValue.vNum 5)]) "hits") = false ∧
      normalizeSearchReply (.vObj [("took", JValue.vNum 5)]) =
        .error (.vObj [("took", JValue.vNum 5)])) ∧
    (jsTruthy (getFieldD (.vObj [("hits", .vObj [("total", JValue.vNum 3)])]) "hits") = true ∧
      ∃ r, normalizeSearchReply (.vObj [("hits", .vObj [("total", JValue.vNum 3)])]) = .ok r ∧
        getField r "total" = some (getFieldD (getFieldD
          (.vObj [("hits", .vObj [("total", JValue.vNum 3)])]) "hits") "total") ∧
        ∃ hv, getField r "hits" = some hv ∧ hv ≠ .vNull ∧
          (∀ x : JValue, ∀ xs : List JValue,
            getFieldD (getFieldD (.vObj [("hits", .vObj [("total", JValue.vNum 3)])])
              "hits") "hits" = .vArr (x :: xs) → hv = .vArr (x :: xs)) ∧
          (getFieldD (getFieldD (.vObj [("hits", .vObj [("total", JValue.vNum 3)])])
            "hits") "hits" = .vArr [] → hv = .vArr []) ∧
          (getFieldD (getFieldD (.vObj [("hits", .vObj [("total", JValue.vNum 3)])])
            "hits") "hits" = .vUndefined → hv = .vArr [])) :=
  ⟨⟨rfl, normalizeSearchReply_behavior.1 _ rfl⟩,
    ⟨rfl, normalizeSearchReply_behavior.2.1 _ rfl⟩⟩

/-! ## Claim C7 -/

/-- Claim C7 (confirmed): every aggregation body contains `from` and
`size` and a terms aggregation keyed by `groupBy` with `size: 0` (all
buckets); when no must/should term filter is produced the bare aggregation
is emitted under `aggs`, and when any is produced the aggregation is
wrapped under `ElmongooseAggWrapper` as a filter aggregation whose boolean
filter carries exactly the produced must/should filters. In particular
`buildAggBody({mustMatch: {breed: "siamese"}, groupBy: "breed", pageSize:
25, page: 1})` has `aggs.ElmongooseAggWrapper.filter.bool.must` equal to
the single filter `{term: {breed: "siamese"}}` and
`aggs.ElmongooseAggWrapper.aggs.ElmongooseAgg.terms.field = "breed"`. -/
theorem mergeAggBody_shape :
    (∀ o : AggOpts,
      getField (mergeAggBody o) "from" =
        some (.vNum (if o.page != 0 then (o.page - 1) * o.pageSize else 0)) ∧
      getField (mergeAggBody o) "size" = some (.vNum o.pageSize)) ∧
    (∀ o : AggOpts, (aggMustFilters o).isEmpty = true →
      (aggShouldFilters o).isEmpty = true →
      getField (mergeAggBody o) "aggs" = some (bareAggBody o.groupBy)) ∧
    (∀ o : AggOpts, ((aggMustFilters o).isEmpty && (aggShouldFilters o).isEmpty) = false →
      getPath (mergeAggBody o) ["aggs", "ElmongooseAggWrapper", "aggs"] =
        some (bareAggBody o.groupBy) ∧
      getPath (mergeAggBody o) ["aggs", "ElmongooseAggWrapper", "filter", "bool", "must"] =
        (if (aggMustFilters o).isEmpty then none else some (.vArr (aggMustFilters o))) ∧
      getPath (mergeAggBody o) ["aggs", "ElmongooseAggWrapper", "filter", "bool", "should"] =
        (if (aggShouldFilters o).isEmpty then none
         else some (.vArr (aggShouldFilters o)))) ∧
    (getPath (mergeAggBody { mustMatch := some [("breed", .vStr "siamese")],
                             groupBy := .vStr "breed", pageSize := 25, page := 1 })
        ["aggs", "ElmongooseAggWrapper", "filter", "bool", "must"] =
      some (.vArr [.vObj [("term", .vObj [("breed", .vStr "siamese")])]]) ∧
     getPath (mergeAggBody { mustMatch := some [("breed", .vStr "siamese")],
                             groupBy := .vStr "breed", pageSize := 25, page := 1 })
        ["aggs", "ElmongooseAggWrapper", "aggs", "ElmongooseAgg", "terms", "field"] =
      some (.vStr "breed")) := by
  refine ⟨?_, ?_, ?_, by constructor <;> rfl⟩
  · intro o
    constructor <;> simp [mergeAggBody, getField, lookupField]
  · intro o h1 h2
    simp [mergeAggBody, h1, h2, getField, lookupField]
  · intro o h
    have hcases : (aggMustFilters o).isEmpty = false ∨ (aggShouldFilters o).isEmpty = false := by
      rcases Bool.and_eq_false_iff.mp h with h' | h'
      · exact Or.inl h'
      · exact Or.inr h'
    have hcond : (!(aggMustFilters o).isEmpty || !(aggShouldFilters o).isEmpty) = true := by
      rcases hcases with h' | h' <;> simp [h']
    cases hA : (aggMustFilters o).isEmpty <;> cases hB : (aggShouldFilters o).isEmpty <;>
      simp_all [mergeAggBody, getPath, getField, lookupField]

/-- Witness for claim C7: with no term filters, `aggs` holds the bare
terms aggregation. -/
theorem mergeAggBody_shape_witness :
    (aggMustFilters { groupBy := JValue.vStr "breed" }).isEmpty = true ∧
    (aggShouldFilters { groupBy := JValue.vStr "breed" }).isEmpty = true ∧
    getField (mergeAggBody { groupBy := JValue.vStr "breed" }) "aggs" =
      some (bareAggBody (.vStr "breed")) :=
  ⟨rfl, rfl, mergeAggBody_shape.2.1 { groupBy := JValue.vStr "breed" } rfl rfl⟩

/-! ## Claim C8 -/

/-- Claim C8, counterexample: the claim says a `mustRange`/`shouldRange`
value that is not a structured object is skipped. The source test is
`typeof rangeOpts[key] === 'object'` (helpers.js line 540), and in
JavaScript `typeof null === 'object'`: the value `null` — not a structured
range expression — is not skipped but yields the filter
`{range: {age: null}}`. -/
theorem buildRangeFilter_null_counterexample :
    buildRangeFilter [("age", .vNull)] = [.vObj [("range", .vObj [("age", .vNull)])]] ∧
    buildRangeFilter [("age", .vNull)] ≠ [] := by
  constructor
  · rfl
  · simp [buildRangeFilter, typeofIsObject]

/-- Claim C8 (amended): for every `mustRange`/`shouldRange` entry, a value
whose JavaScript `typeof` is `"object"` — a structured object, but also an
array or `null` — produces exactly one `range` filter keyed by the entry's
field name with the value passed through verbatim; any other value
(strings, numbers, booleans, `undefined`) is skipped with a log line and
contributes no filter, the build does not fail, and the other entries of
the category are still processed. -/
theorem buildRangeFilter_typeof_behavior (pre post : List (String × JValue)) (key : String)
    (v : JValue) :
    (typeofIsObject v = true → buildRangeFilter (pre ++ (key, v) :: post) =
      buildRangeFilter pre ++ [.vObj [("range", .vObj [(key, v)])]] ++ buildRangeFilter post) ∧
    (typeofIsObject v = false → buildRangeFilter (pre ++ (key, v) :: post) =
      buildRangeFilter pre ++ buildRangeFilter post) := by
  constructor
  · intro h
    rw [buildRangeFilter_append]
    simp [buildRangeFilter, h]
  · intro h
    rw [buildRangeFilter_append]
    simp [buildRangeFilter, h]

/-- Witness for the amended claim C8: an object-valued range expression
between two skipped scalar entries yields exactly its one filter. -/
theorem buildRangeFilter_typeof_behavior_witness :
    typeofIsObject (.vObj [("gt", JValue.vNum 8)]) = true ∧
    buildRangeFilter ([("bad", JValue.vStr "x")] ++
        ("age", JValue.vObj [("gt", JValue.vNum 8)]) :: [("worse", JValue.vNum 1)]) =
      buildRangeFilter [("bad", JValue.vStr "x")] ++
        [.vObj [("range", .vObj [("age", .vObj [("gt", JValue.vNum 8)])])]] ++
        buildRangeFilter [("worse", JValue.vNum 1)] :=
  ⟨rfl, (buildRangeFilter_typeof_behavior [("bad", JValue.vStr "x")]
      [("worse", JValue.vNum 1)] "age" (.vObj [("gt", JValue.vNum 8)])).1 rfl⟩

/-! ## Claim C9 -/

/-- Claim C9 (confirmed): `buildFuzzyMatchingQuery` mutates the caller's
option object: every non-array string value is replaced in place by its
lower-cased form before the exact/fuzzy clause pair is built (and the pair
is built from the lower-cased value), while array values are left unchanged
and their elements are used unmodified (not lower-cased). The second
component of the embedding is the final state of the caller's `fuzzyOpts`
object. -/
theorem buildFuzzyMatchingQuery_inplace_lowercase :
    (∀ (opts : List (String × JValue)) (fz : JValue),
      (buildFuzzyMatchingQuery opts fz).2 = opts.map fun kv =>
        match kv with
        | (k, .vStr s) => (k, JValue.vStr (jsToLowerCase s))
        | kv => kv) ∧
    (∀ (key s : String) (fz : JValue),
      (buildFuzzyMatchingQuery [(key, .vStr s)] fz).1 =
        [fuzzyShouldBody key (.vStr (jsToLowerCase s)) fz]) ∧
    (∀ (key : String) (xs : List JValue) (fz : JValue),
      (buildFuzzyMatchingQuery [(key, .vArr xs)] fz).1 =
        xs.map fun x => fuzzyShouldBody key x fz) ∧
    (∀ (key : String) (xs : List JValue) (fz : JValue),
      (buildFuzzyMatchingQuery [(key, .vArr xs)] fz).2 = [(key, .vArr xs)]) := by
  refine ⟨?_, ?_, ?_, ?_⟩
  · intro opts fz
    induction opts with
    | nil => rfl
    | cons kv rest ih =>
      obtain ⟨k, v⟩ := kv
      cases v <;> simp [buildFuzzyMatchingQuery, ih]
  · intro key s fz
    simp [buildFuzzyMatchingQuery]
  · intro key xs fz
    simp [buildFuzzyMatchingQuery]
  · intro key xs fz
    simp [buildFuzzyMatchingQuery]

/-! ## Claim C10 -/

/-- Claim C10 (confirmed): for every aggregation reply that passes the hits
validation, the normalized result always carries `total` (from
`hits.total`) and `aggregation` (the reply's `aggregations` verbatim), but
carries a `hits` property only when the reply's hit array is present and
non-empty; when the hit array is absent or empty the result has no `hits`
property at all — unlike search normalization, which supplies `hits: []`
on the same reply. -/
theorem normalizeAggReply_hits_optional (body : JValue)
    (hpass : jsTruthy (getFieldD body "hits") = true) :
    (getFieldD (getFieldD body "hits") "hits" = .vUndefined ∨
       getFieldD (getFieldD body "hits") "hits" = .vArr [] →
      normalizeAggReply body = .ok (.vObj [
        ("total", getFieldD (getFieldD body "hits") "total"),
        ("aggregation", getFieldD body "aggregations")]) ∧
      (∀ t a : JValue, getField (.vObj [("total", t), ("aggregation", a)]) "hits" = none) ∧
      normalizeSearchReply body = .ok (.vObj [
        ("total", getFieldD (getFieldD body "hits") "total"),
        ("hits", .vArr [])])) ∧
    (∀ (x : JValue) (xs : List JValue),
      getFieldD (getFieldD body "hits") "hits" = .vArr (x :: xs) →
      normalizeAggReply body = .ok (.vObj [
        ("total", getFieldD (getFieldD body "hits") "total"),
        ("aggregation", getFieldD body "aggregations"),
        ("hits", .vArr (x :: xs))])) := by
  constructor
  · intro hslot
    refine ⟨?_, fun t a => rfl, ?_⟩ <;>
      rcases hslot with h | h <;>
      · simp only [normalizeAggReply, normalizeSearchReply, hpass, h]
        simp [jsTruthy, jsLengthVal]
  · intro x xs h
    simp only [normalizeAggReply, hpass, h]
    have hne : ¬((xs.length : Int) + 1 = 0) := by omega
    simp [jsTruthy, jsLengthVal, hne]

/-- Witness for claim C10: a reply with `hits.total` but no hit array
normalizes to an aggregation result without any `hits` property, while
search normalization of the same reply supplies an empty `hits` array. -/
theorem normalizeAggReply_hits_optional_witness :
    jsTruthy (getFieldD (.vObj [("hits", .vObj [("total", JValue.vNum 2)]),
        ("aggregations", .vObj [("buckets", JValue.vArr [])])]) "hits") = true ∧
    normalizeAggReply (.vObj [("hits", .vObj [("total", JValue.vNum 2)]),
        ("aggregations", .vObj [("buckets", JValue.vArr [])])]) =
      .ok (.vObj [("total", JValue.vNum 2),
        ("aggregation", .vObj [("buckets", JValue.vArr [])])]) ∧
    normalizeSearchReply (.vObj [("hits", .vObj [("total", JValue.vNum 2)]),
        ("aggregations", .vObj [("buckets", JValue.vArr [])])]) =
      .ok (.vObj [("total", JValue.vNum 2), ("hits", JValue.vArr [])]) := by
  have hb := normalizeAggReply_hits_optional
    (.vObj [("hits", .vObj [("total", JValue.vNum 2)]),
      ("aggregations", .vObj [("buckets", JValue.vArr [])])]) rfl
  exact ⟨rfl, (hb.1 (Or.inl rfl)).1, (hb.1 (Or.inl rfl)).2.2⟩
